import Mathlib

/-!
Verification of the ChainWatch agent orchestration & scheduling engine.

This file gives a shallow embedding, in Lean 4, of the core components of the
`chainwatch_backend` repository and settles a list of claims about them:

* `app/core/rate_limiter.py`   — sliding-window rate limiter (`RateLimiter`);
* `app/agents/tool_executor.py` — condition evaluation (`_check_wallet_condition`);
* `app/core/scheduler.py`      — orchestrator (`AgentScheduler`): due-agent
  selection, the per-agent pipeline, lifecycle updates, the concurrency
  semaphore, the manual run, and the stop behaviour.

Timestamps are modelled as integers (seconds); monetary amounts as rationals.
External collaborators (the bitsCrunch fetch, the Gemini analysis call, the
Telegram notifier, the database) are modelled as oracle inputs: the embedding
is parametric in their outcomes, exactly where the Python code awaits them.
-/

namespace ChainWatch

/- ================================================================
   Rate limiter (app/core/rate_limiter.py)
   ================================================================ -/

/-- Per-service rate-limit configuration, mirroring the `self.limits` dict of
`RateLimiter.__init__`: each service may carry `per_minute`, `per_hour` and
`per_month` entries (`bitscrunch` has `per_minute`/`per_month`, `gemini` has
`per_minute`/`per_hour`).  A missing key is `none`. -/
structure ServiceLimits where
  perMinute : Option Nat
  perHour : Option Nat
  perMonth : Option Nat
deriving Repr, DecidableEq

/-- The purge loop `while request_times and request_times[0] < cutoff_time:
popleft()` of `_wait_for_rate_limit`: drop leading queue entries strictly
older than the cutoff, stopping at the first entry that is not. -/
def purgeOlder (cutoff : Int) : List Int → List Int
  | [] => []
  | t :: ts => if t < cutoff then purgeOlder cutoff ts else t :: ts

/-- Queue plus wall-clock time, threaded through the waiting logic; sleeping
advances `time`. -/
structure WaitState where
  queue : List Int
  time : Int
deriving Repr, DecidableEq

/-- The minute-limit block of `_wait_for_rate_limit` (lines 45-60): purge
entries older than one minute; if the queue is at or above the limit, compute
`wait = 60 - (now - oldest)`, and when it is positive sleep for `wait` and
pop the oldest entry.  A `per_minute` of `0` is falsy in Python, so the whole
block is skipped in that case. -/
def minuteWait (perMinute : Option Nat) (t0 : Int) (q : List Int) : WaitState :=
  match perMinute with
  | none => ⟨q, t0⟩
  | some m =>
    if m = 0 then ⟨q, t0⟩ else
    match purgeOlder (t0 - 60) q with
    | [] => ⟨[], t0⟩
    | oldest :: rest =>
      if m ≤ (oldest :: rest).length then
        let wait := 60 - (t0 - oldest)
        if 0 < wait then ⟨rest, t0 + wait⟩ else ⟨oldest :: rest, t0⟩
      else ⟨oldest :: rest, t0⟩

/-- The hour-limit block of `_wait_for_rate_limit` (lines 62-72): it filters
(without mutating the queue) the entries of the last hour, using the *stale*
`current_time` read at function entry (`t0`), and sleeps when at or above the
limit.  Nothing is popped. -/
def hourWait (perHour : Option Nat) (t0 : Int) (w : WaitState) : WaitState :=
  match perHour with
  | none => w
  | some hLim =>
    if hLim = 0 then w else
    match w.queue.filter (fun t => decide (t0 - 3600 ≤ t)) with
    | [] => w
    | h0 :: rest =>
      if hLim ≤ (h0 :: rest).length then
        let wait := 3600 - (t0 - h0)
        if 0 < wait then ⟨w.queue, w.time + wait⟩ else w
      else w

/-- `RateLimiter._wait_for_rate_limit`: the minute block followed by the hour
block.  Note that no block reads `per_month`. -/
def waitForRateLimit (L : ServiceLimits) (t0 : Int) (q : List Int) : WaitState :=
  hourWait L.perHour t0 (minuteWait L.perMinute t0 q)

/-- `RateLimiter._record_request`: append the current timestamp; if the queue
then holds more than 100 entries, discard the oldest. -/
def recordRequest (t : Int) (q : List Int) : List Int :=
  if 100 < (q ++ [t]).length then (q ++ [t]).tail else q ++ [t]

/-- `RateLimiter.acquire` with rate limiting enabled: under the per-service
lock, wait for the rate limit and then record the request.  Returns the new
queue together with the completion (record) time. -/
def acquire (L : ServiceLimits) (t0 : Int) (q : List Int) : List Int × Int :=
  let w := waitForRateLimit L t0 q
  (recordRequest w.time w.queue, w.time)

/-- State of a serialized run of `acquire` calls on one service: current wall
time, the `request_times` queue, and the full history of completion
timestamps (each `acquire` records exactly one). -/
structure LimiterRun where
  time : Int
  queue : List Int
  completions : List Int
deriving Repr, DecidableEq

/-- Execute a sequence of `acquire` calls on one service.  The per-service
lock (`self.locks[service_name]`) serializes them, so each call starts at the
later of its arrival time and the completion of the previous call. -/
def acquireSeq (L : ServiceLimits) : List Int → LimiterRun → LimiterRun
  | [], s => s
  | a :: rest, s =>
    let t0 := max s.time a
    let p := acquire L t0 s.queue
    acquireSeq L rest ⟨p.2, p.1, s.completions ++ [p.2]⟩

/-- Number of recorded timestamps lying within the trailing window of
duration `dur` ending at `t`. -/
def countWindow (dur : Nat) (t : Int) (cs : List Int) : Nat :=
  (cs.filter (fun c => decide (t - (dur : Int) < c ∧ c ≤ t))).length

/-- C1.  The claim states that for *each* configured trailing window
(per-minute, per-hour, per-month) the number of recorded consumptions inside
the window never exceeds the window's configured maximum.  The code stores a
`per_month` limit in `self.limits` (for `bitscrunch`) but
`_wait_for_rate_limit` never reads it, so the monthly ceiling is not
enforced.  Failing input: limits `per_minute = 2`, `per_month = 3`, and four
`acquire` calls all arriving at time `0`.  The limiter records completions at
times `0, 0, 60, 60`: the 30-day (2592000 s) trailing window ending at `60`
holds 4 recorded consumptions, exceeding the configured monthly maximum 3. -/
theorem C1_month_window_exceeded :
    (acquireSeq ⟨some 2, none, some 3⟩ [0, 0, 0, 0] ⟨0, [], []⟩).completions
        = [0, 0, 60, 60]
    ∧ countWindow 2592000 60
        (acquireSeq ⟨some 2, none, some 3⟩ [0, 0, 0, 0] ⟨0, [], []⟩).completions = 4
    ∧ 3 < countWindow 2592000 60
        (acquireSeq ⟨some 2, none, some 3⟩ [0, 0, 0, 0] ⟨0, [], []⟩).completions := by
  refine ⟨by decide, by decide, by decide⟩

lemma purgeOlder_length_le (c : Int) (q : List Int) :
    (purgeOlder c q).length ≤ q.length := by
  induction q with
  | nil => simp [purgeOlder]
  | cons t ts ih =>
    simp only [purgeOlder]
    split
    · exact Nat.le_trans ih (Nat.le_succ _)
    · simp

lemma minuteWait_queue_length_le (pm : Option Nat) (t0 : Int) (q : List Int) :
    (minuteWait pm t0 q).queue.length ≤ q.length := by
  unfold minuteWait
  match pm with
  | none => simp
  | some m =>
    simp only
    split
    · simp
    · have hp := purgeOlder_length_le (t0 - 60) q
      cases hq : purgeOlder (t0 - 60) q with
      | nil => simp
      | cons oldest rest =>
        rw [hq] at hp
        simp only
        split
        · split
          · exact Nat.le_trans (by simpa using Nat.le_of_succ_le hp) (le_refl _)
          · exact hp
        · exact hp

lemma hourWait_queue (ph : Option Nat) (t0 : Int) (w : WaitState) :
    (hourWait ph t0 w).queue = w.queue := by
  unfold hourWait
  match ph with
  | none => rfl
  | some hLim =>
    simp only
    split
    · rfl
    · split
      · rfl
      · split
        · split <;> rfl
        · rfl

lemma recordRequest_length_le (t : Int) (q : List Int) (h : q.length ≤ 100) :
    (recordRequest t q).length ≤ 100 := by
  unfold recordRequest
  split
  · rename_i hgt
    simp only [List.length_tail, List.length_append, List.length_cons,
      List.length_nil] at *
    omega
  · rename_i hle
    simp only [List.length_append, List.length_cons, List.length_nil] at *
    omega

lemma acquire_queue_length_le (L : ServiceLimits) (t0 : Int) (q : List Int)
    (h : q.length ≤ 100) : (acquire L t0 q).1.length ≤ 100 := by
  unfold acquire waitForRateLimit
  apply recordRequest_length_le
  rw [hourWait_queue]
  exact Nat.le_trans (minuteWait_queue_length_le _ _ _) h

/-- C10.  `_record_request` keeps only the last 100 timestamps: recording
while 100 timestamps are stored discards the oldest (the queue becomes the
tail of the old queue plus the new timestamp), and along any serialized
sequence of `acquire` calls the per-service history length stays at most
100. -/
theorem C10_history_capped_at_100 :
    (∀ (t : Int) (q : List Int), q.length = 100 →
        recordRequest t q = q.tail ++ [t])
    ∧ (∀ (L : ServiceLimits) (arrivals : List Int) (s : LimiterRun),
        s.queue.length ≤ 100 →
        (acquireSeq L arrivals s).queue.length ≤ 100) := by
  constructor
  · intro t q h
    unfold recordRequest
    have hlen : (q ++ [t]).length = 101 := by simp [h]
    rw [if_pos (by omega)]
    cases q with
    | nil => simp at h
    | cons x xs => simp
  · intro L arrivals
    induction arrivals with
    | nil => intro s h; simpa [acquireSeq] using h
    | cons a rest ih =>
      intro s h
      simp only [acquireSeq]
      exact ih _ (acquire_queue_length_le _ _ _ h)

/-- Witness for C10 at concrete inputs: recording at time 7 on a full queue
of 100 zero timestamps discards the oldest, and a concrete three-call
`acquire` sequence keeps the queue within the cap. -/
theorem C10_history_capped_at_100_witness :
    recordRequest 7 (List.replicate 100 (0 : Int))
        = (List.replicate 100 (0 : Int)).tail ++ [7]
    ∧ (acquireSeq ⟨some 2, none, some 3⟩ [0, 0, 0] ⟨0, [], []⟩).queue.length ≤ 100 :=
  ⟨C10_history_capped_at_100.1 7 _ (by simp),
   C10_history_capped_at_100.2 ⟨some 2, none, some 3⟩ [0, 0, 0] ⟨0, [], []⟩ (by decide)⟩

/- ================================================================
   Condition evaluator (app/agents/tool_executor.py,
   ToolExecutor._check_wallet_condition)
   ================================================================ -/

/-- The Python `str.lower()` used when comparing addresses: lower-case each
character. -/
def lowerStr (s : String) : String := ⟨s.data.map Char.toLower⟩

/-- One entry of a `token/transfers` response, with the fields
`_check_wallet_condition` reads: `sender`, `receiver`, `value_native`. -/
structure Transfer where
  sender : String
  receiver : String
  valueNative : ℚ
deriving Repr, DecidableEq

/-- A declarative condition as stored in the structured plan: `type`,
`parameter`, `operator`, `value` (already coerced to a number, as the code
does with `float(value)`). -/
structure Condition where
  ctype : String
  parameter : String
  operator : String
  value : ℚ
deriving Repr, DecidableEq

/-- The alert payload built by `_check_wallet_condition`, restricted to the
fields the claims speak about: `type`, `severity`, the reported amount
(`details["amount"]`) and the token name. -/
structure WalletAlert where
  atype : String
  severity : String
  amount : ℚ
  token : String
deriving Repr, DecidableEq

/-- The fetched wallet-monitoring data: one transfer list per monitored
token, in the order the code iterates them (`ETH`, `USDT`, `USDC`). -/
structure WalletData where
  ethTransfers : List Transfer
  usdtTransfers : List Transfer
  usdcTransfers : List Transfer
deriving Repr, DecidableEq

/-- The inner loop of the `outgoing_transfer` branch (lines 405-430): walk
the token's transfers in order; on the first transfer whose sender is the
monitored wallet (case-insensitive) and whose raw `value_native` satisfies
`gt threshold`, return the alert; severity is `high` when the amount exceeds
twice the threshold, else `medium`. -/
def outgoingScan (wallet : String) (threshold : ℚ) (op : String) (token : String) :
    List Transfer → Option WalletAlert
  | [] => none
  | tr :: rest =>
    if lowerStr tr.sender = lowerStr wallet then
      if op = "gt" ∧ threshold < tr.valueNative then
        some ⟨"wallet_threshold_exceeded",
          if threshold * 2 < tr.valueNative then "high" else "medium",
          tr.valueNative, token⟩
      else outgoingScan wallet threshold op token rest
    else outgoingScan wallet threshold op token rest

/-- The inner loop of the `incoming_transfer` branch (lines 438-461):
receiver-side analogue, severity always `medium`. -/
def incomingScan (wallet : String) (threshold : ℚ) (op : String) (token : String) :
    List Transfer → Option WalletAlert
  | [] => none
  | tr :: rest =>
    if lowerStr tr.receiver = lowerStr wallet then
      if op = "gt" ∧ threshold < tr.valueNative then
        some ⟨"wallet_large_incoming", "medium", tr.valueNative, token⟩
      else incomingScan wallet threshold op token rest
    else incomingScan wallet threshold op token rest

/-- The token iteration order of `_check_wallet_condition`
(`token_names = ["ETH", "USDT", "USDC"]`). -/
def tokenTransfers (d : WalletData) : List (String × List Transfer) :=
  [("ETH", d.ethTransfers), ("USDT", d.usdtTransfers), ("USDC", d.usdcTransfers)]

/-- The outer token loop: the first alert found in token order is returned
(the Python `return` exits both loops). -/
def scanTokens (f : String → List Transfer → Option WalletAlert) :
    List (String × List Transfer) → Option WalletAlert
  | [] => none
  | p :: rest =>
    match f p.1 p.2 with
    | some a => some a
    | none => scanTokens f rest

/-- `ToolExecutor._check_wallet_condition`: the evaluator is a function of
the condition, the wallet address and the *current* cycle's fetched data
only — it has no previous-snapshot input at all. -/
def checkWalletCondition (cond : Condition) (wallet : String) (d : WalletData) :
    Option WalletAlert :=
  if cond.parameter = "outgoing_transfer" ∧ cond.ctype = "threshold" then
    scanTokens (fun tok trs => outgoingScan wallet cond.value cond.operator tok trs)
      (tokenTransfers d)
  else if cond.parameter = "incoming_transfer" ∧ cond.ctype = "threshold" then
    scanTokens (fun tok trs => incomingScan wallet cond.value cond.operator tok trs)
      (tokenTransfers d)
  else none

/-- All fetched transfers in token order. -/
def allTransfers (d : WalletData) : List Transfer :=
  d.ethTransfers ++ d.usdtTransfers ++ d.usdcTransfers

/-- C2, counterexample.  The claim says a condition on a cumulative
parameter fires on `delta = current − previous` and, when no previous
snapshot exists for the target, never fires on that cycle.  The evaluator in
the code takes no previous snapshot at all: on the very first cycle, with
condition `outgoing_transfer gt 5` and a single fetched transfer of raw
amount `10` sent by the monitored wallet, it fires immediately and reports
the raw amount `10` — not a delta, and not suppressed by any first-run
policy. -/
theorem C2_fires_on_first_cycle_without_history :
    checkWalletCondition ⟨"threshold", "outgoing_transfer", "gt", 5⟩ "0xw"
        ⟨[⟨"0xw", "0xr", 10⟩], [], []⟩
      = some ⟨"wallet_threshold_exceeded", "medium", 10, "ETH"⟩ := by
  norm_num [checkWalletCondition, tokenTransfers, scanTokens, outgoingScan, lowerStr]

lemma outgoingScan_isSome_iff (w : String) (v : ℚ) (op tok : String)
    (l : List Transfer) :
    (outgoingScan w v op tok l).isSome ↔
      op = "gt" ∧ ∃ tr ∈ l, lowerStr tr.sender = lowerStr w ∧ v < tr.valueNative := by
  induction l with
  | nil => simp [outgoingScan]
  | cons tr rest ih =>
    simp only [outgoingScan]
    split
    · rename_i hs
      split
      · rename_i hfire
        simp only [Option.isSome_some, true_iff]
        exact ⟨hfire.1, tr, List.mem_cons_self _ _, hs, hfire.2⟩
      · rename_i hnf
        rw [ih]
        constructor
        · rintro ⟨hop, tr2, hm, hs2, hv⟩
          exact ⟨hop, tr2, List.mem_cons_of_mem _ hm, hs2, hv⟩
        · rintro ⟨hop, tr2, hm, hs2, hv⟩
          rcases List.mem_cons.mp hm with h | h
          · subst h; exact absurd ⟨hop, hv⟩ hnf
          · exact ⟨hop, tr2, h, hs2, hv⟩
    · rename_i hs
      rw [ih]
      constructor
      · rintro ⟨hop, tr2, hm, hs2, hv⟩
        exact ⟨hop, tr2, List.mem_cons_of_mem _ hm, hs2, hv⟩
      · rintro ⟨hop, tr2, hm, hs2, hv⟩
        rcases List.mem_cons.mp hm with h | h
        · subst h; exact absurd hs2 hs
        · exact ⟨hop, tr2, h, hs2, hv⟩

lemma outgoingScan_some (w : String) (v : ℚ) (op tok : String)
    (l : List Transfer) (a : WalletAlert) (h : outgoingScan w v op tok l = some a) :
    ∃ tr ∈ l, lowerStr tr.sender = lowerStr w ∧ v < tr.valueNative ∧
      a = ⟨"wallet_threshold_exceeded",
        if v * 2 < tr.valueNative then "high" else "medium", tr.valueNative, tok⟩ := by
  induction l with
  | nil => simp [outgoingScan] at h
  | cons tr rest ih =>
    rw [outgoingScan] at h
    split at h
    · rename_i hs
      split at h
      · rename_i hfire
        exact ⟨tr, List.mem_cons_self _ _, hs, hfire.2,
          (Option.some_inj.mp h).symm⟩
      · obtain ⟨tr2, hm, h1, h2, h3⟩ := ih h
        exact ⟨tr2, List.mem_cons_of_mem _ hm, h1, h2, h3⟩
    · obtain ⟨tr2, hm, h1, h2, h3⟩ := ih h
      exact ⟨tr2, List.mem_cons_of_mem _ hm, h1, h2, h3⟩

lemma scanTokens_isSome_iff (f : String → List Transfer → Option WalletAlert)
    (l : List (String × List Transfer)) :
    (scanTokens f l).isSome ↔ ∃ p ∈ l, (f p.1 p.2).isSome := by
  induction l with
  | nil => simp [scanTokens]
  | cons p rest ih =>
    rw [scanTokens]
    cases hf : f p.1 p.2 with
    | some a =>
      simp only [Option.isSome_some, true_iff]
      exact ⟨p, List.mem_cons_self _ _, by rw [hf]; rfl⟩
    | none =>
      rw [ih]
      constructor
      · rintro ⟨q, hm, hq⟩
        exact ⟨q, List.mem_cons_of_mem _ hm, hq⟩
      · rintro ⟨q, hm, hq⟩
        rcases List.mem_cons.mp hm with h | h
        · subst h; rw [hf] at hq; simp at hq
        · exact ⟨q, h, hq⟩

lemma scanTokens_some (f : String → List Transfer → Option WalletAlert)
    (l : List (String × List Transfer)) (a : WalletAlert)
    (h : scanTokens f l = some a) : ∃ p ∈ l, f p.1 p.2 = some a := by
  induction l with
  | nil => simp [scanTokens] at h
  | cons p rest ih =>
    rw [scanTokens] at h
    split at h
    · rename_i a2 hf
      exact ⟨p, List.mem_cons_self _ _, by rw [hf, h]⟩
    · obtain ⟨q, hm, hq⟩ := ih h
      exact ⟨q, List.mem_cons_of_mem _ hm, hq⟩

lemma mem_allTransfers_iff (d : WalletData) (tr : Transfer) :
    tr ∈ allTransfers d ↔ ∃ p ∈ tokenTransfers d, tr ∈ p.2 := by
  simp [allTransfers, tokenTransfers, List.mem_append, or_assoc]

/-- C2, amended claim.  Evaluation of an `outgoing_transfer` `threshold`
condition is stateless over the current cycle's fetched transfers: it fires
exactly when the operator is `gt` and some fetched transfer has the
monitored wallet as sender (case-insensitive) and raw `value_native`
strictly above the threshold; the produced alert carries the raw transfer
amount (no delta is computed, there is no previous snapshot and no
first-run suppression), with severity `high` when the amount exceeds twice
the threshold and `medium` otherwise. -/
theorem C2_amended_raw_amount_evaluation (cond : Condition) (wallet : String)
    (d : WalletData) (hp : cond.parameter = "outgoing_transfer")
    (ht : cond.ctype = "threshold") :
    ((checkWalletCondition cond wallet d).isSome ↔
      cond.operator = "gt" ∧ ∃ tr ∈ allTransfers d,
        lowerStr tr.sender = lowerStr wallet ∧ cond.value < tr.valueNative)
    ∧ ∀ a, checkWalletCondition cond wallet d = some a →
        ∃ tr ∈ allTransfers d, lowerStr tr.sender = lowerStr wallet ∧
          cond.value < tr.valueNative ∧ a.amount = tr.valueNative ∧
          a.atype = "wallet_threshold_exceeded" ∧
          a.severity = if cond.value * 2 < tr.valueNative then "high" else "medium" := by
  have hcond : checkWalletCondition cond wallet d =
      scanTokens (fun tok trs => outgoingScan wallet cond.value cond.operator tok trs)
        (tokenTransfers d) := by
    unfold checkWalletCondition
    rw [if_pos ⟨hp, ht⟩]
  constructor
  · rw [hcond, scanTokens_isSome_iff]
    constructor
    · rintro ⟨p, hm, hp2⟩
      rw [outgoingScan_isSome_iff] at hp2
      obtain ⟨hop, tr, htr, hs, hv⟩ := hp2
      exact ⟨hop, tr, (mem_allTransfers_iff d tr).mpr ⟨p, hm, htr⟩, hs, hv⟩
    · rintro ⟨hop, tr, htr, hs, hv⟩
      obtain ⟨p, hm, htr2⟩ := (mem_allTransfers_iff d tr).mp htr
      exact ⟨p, hm, (outgoingScan_isSome_iff _ _ _ _ _).mpr ⟨hop, tr, htr2, hs, hv⟩⟩
  · intro a ha
    rw [hcond] at ha
    obtain ⟨p, hm, hp2⟩ := scanTokens_some _ _ _ ha
    obtain ⟨tr, htr, hs, hv, hEq⟩ := outgoingScan_some _ _ _ _ _ _ hp2
    refine ⟨tr, (mem_allTransfers_iff d tr).mpr ⟨p, hm, htr⟩, hs, hv, ?_, ?_, ?_⟩
    · rw [hEq]
    · rw [hEq]
    · rw [hEq]

/-- Witness for the amended C2 at a concrete input. -/
theorem C2_amended_raw_amount_evaluation_witness :
    ((checkWalletCondition ⟨"threshold", "outgoing_transfer", "gt", 5⟩ "0xw"
        ⟨[⟨"0xw", "0xr", 10⟩], [], []⟩).isSome ↔
      ("gt" : String) = "gt" ∧ ∃ tr ∈ allTransfers ⟨[⟨"0xw", "0xr", 10⟩], [], []⟩,
        lowerStr tr.sender = lowerStr "0xw" ∧ (5 : ℚ) < tr.valueNative)
    ∧ ∀ a, checkWalletCondition ⟨"threshold", "outgoing_transfer", "gt", 5⟩ "0xw"
          ⟨[⟨"0xw", "0xr", 10⟩], [], []⟩ = some a →
        ∃ tr ∈ allTransfers ⟨[⟨"0xw", "0xr", 10⟩], [], []⟩,
          lowerStr tr.sender = lowerStr "0xw" ∧
          (5 : ℚ) < tr.valueNative ∧ a.amount = tr.valueNative ∧
          a.atype = "wallet_threshold_exceeded" ∧
          a.severity = if (5 : ℚ) * 2 < tr.valueNative then "high" else "medium" :=
  C2_amended_raw_amount_evaluation ⟨"threshold", "outgoing_transfer", "gt", 5⟩
    "0xw" ⟨[⟨"0xw", "0xr", 10⟩], [], []⟩ rfl rfl

/- ================================================================
   Scheduler: data model and due-agent selection (app/core/scheduler.py)
   ================================================================ -/

/-- An agent database row, restricted to the columns the scheduler reads and
writes: `status`, `last_run_at`, `next_run_at`, `error_count`, `max_retries`,
`last_error`, `schedule_interval`. -/
structure AgentRec where
  id : Nat
  status : String
  lastRunAt : Option Int
  nextRunAt : Option Int
  errorCount : Nat
  maxRetries : Nat
  lastError : Option String
  scheduleInterval : Int
deriving Repr, DecidableEq

/-- The WHERE clause of `_get_agents_to_run` (lines 118-127):
`status = "active"` AND (`last_run_at IS NULL` OR `next_run_at <= now`) AND
`error_count < max_retries`.  In SQL a `next_run_at <= now` comparison on a
NULL column is not satisfied, hence the `none => false` arm. -/
def isDue (now : Int) (a : AgentRec) : Bool :=
  (a.status == "active")
    && (a.lastRunAt.isNone
        || (match a.nextRunAt with
            | some t => decide (t ≤ now)
            | none => false))
    && decide (a.errorCount < a.maxRetries)

/-- `AgentScheduler._get_agents_to_run`: one consistent read returning every
row satisfying the WHERE clause. -/
def getAgentsToRun (now : Int) (agents : List AgentRec) : List AgentRec :=
  agents.filter (isDue now)

/-- C3.  Due-agent selection returns exactly the agents with
`status = active`, (`last-run` unset or `next-run ≤ now`) and
`error-count < max-retries`; consequently agents in `paused` or `error`
status, and agents whose error count has reached `max_retries`, are never
selected. -/
theorem C3_due_selection_exact (now : Int) (agents : List AgentRec)
    (a : AgentRec) :
    (a ∈ getAgentsToRun now agents ↔
      a ∈ agents ∧ a.status = "active"
        ∧ (a.lastRunAt = none ∨ ∃ t, a.nextRunAt = some t ∧ t ≤ now)
        ∧ a.errorCount < a.maxRetries)
    ∧ (a.status = "paused" ∨ a.status = "error" ∨ a.maxRetries ≤ a.errorCount →
        a ∉ getAgentsToRun now agents) := by
  have hmem : a ∈ getAgentsToRun now agents ↔
      a ∈ agents ∧ a.status = "active"
        ∧ (a.lastRunAt = none ∨ ∃ t, a.nextRunAt = some t ∧ t ≤ now)
        ∧ a.errorCount < a.maxRetries := by
    unfold getAgentsToRun isDue
    rw [List.mem_filter]
    constructor
    · rintro ⟨hm, hb⟩
      simp only [Bool.and_eq_true, Bool.or_eq_true, beq_iff_eq,
        Option.isNone_iff_eq_none, decide_eq_true_eq] at hb
      obtain ⟨⟨hst, hdue⟩, herr⟩ := hb
      refine ⟨hm, hst, ?_, herr⟩
      rcases hdue with h | h
      · exact Or.inl h
      · match hnr : a.nextRunAt with
        | some t =>
          rw [hnr] at h
          exact Or.inr ⟨t, rfl, by simpa using h⟩
        | none => rw [hnr] at h; simp at h
    · rintro ⟨hm, hst, hdue, herr⟩
      refine ⟨hm, ?_⟩
      simp only [Bool.and_eq_true, Bool.or_eq_true, beq_iff_eq,
        Option.isNone_iff_eq_none, decide_eq_true_eq]
      refine ⟨⟨hst, ?_⟩, herr⟩
      rcases hdue with h | ⟨t, ht, hle⟩
      · exact Or.inl h
      · right; rw [ht]; simpa using hle
  refine ⟨hmem, ?_⟩
  intro h hin
  rw [hmem] at hin
  obtain ⟨_, hst, _, herr⟩ := hin
  rcases h with h | h | h
  · rw [hst] at h; exact absurd h (by decide)
  · rw [hst] at h; exact absurd h (by decide)
  · omega

/-- Witness for C3: a concrete never-run active agent is selected, and the
exclusion clause applies to a concrete paused agent. -/
theorem C3_due_selection_exact_witness :
    (⟨1, "active", none, none, 0, 3, none, 300⟩ ∈
        getAgentsToRun 0 [⟨1, "active", none, none, 0, 3, none, 300⟩] ↔
      (⟨1, "active", none, none, 0, 3, none, 300⟩ : AgentRec) ∈
          [(⟨1, "active", none, none, 0, 3, none, 300⟩ : AgentRec)]
        ∧ ("active" : String) = "active"
        ∧ ((none : Option Int) = none ∨ ∃ t, (none : Option Int) = some t ∧ t ≤ 0)
        ∧ 0 < 3)
    ∧ (("paused" : String) = "paused" ∨ ("paused" : String) = "error" ∨ 3 ≤ 0 →
        (⟨2, "paused", none, none, 0, 3, none, 300⟩ : AgentRec) ∉
          getAgentsToRun 0 [⟨2, "paused", none, none, 0, 3, none, 300⟩]) :=
  ⟨(C3_due_selection_exact 0 [⟨1, "active", none, none, 0, 3, none, 300⟩]
      ⟨1, "active", none, none, 0, 3, none, 300⟩).1,
   (C3_due_selection_exact 0 [⟨2, "paused", none, none, 0, 3, none, 300⟩]
      ⟨2, "paused", none, none, 0, 3, none, 300⟩).2⟩

/- ================================================================
   Scheduler: lifecycle updates and the per-agent pipeline
   ================================================================ -/

/-- `AgentScheduler._update_agent_run_time`: set `last_run_at := run_time`
and `next_run_at := run_time + schedule_interval`. -/
def updateAgentRunTime (now : Int) (a : AgentRec) : AgentRec :=
  { a with lastRunAt := some now, nextRunAt := some (now + a.scheduleInterval) }

/-- `AgentScheduler._update_agent_status`. -/
def updateAgentStatus (st : String) (a : AgentRec) : AgentRec :=
  { a with status := st }

/-- `AgentScheduler._increment_agent_error_count`: `error_count + 1`, record
the error message, and set `status := "error"` exactly when the new count
reaches `max_retries`, otherwise keep the current status. -/
def incrementAgentErrorCount (msg : String) (a : AgentRec) : AgentRec :=
  { a with errorCount := a.errorCount + 1,
           lastError := some msg,
           status := if a.maxRetries ≤ a.errorCount + 1 then "error" else a.status }

/-- `AgentScheduler._reset_agent_error_count`: zero the error count and clear
the last error (status untouched). -/
def resetAgentErrorCount (a : AgentRec) : AgentRec :=
  { a with errorCount := 0, lastError := none }

/-- Outcome of `tool_executor.execute_plan` (an external fetch/evaluate
call): overall success flag, the triggered alerts, and the error text used
in the failure message. -/
structure ExecOutcome where
  success : Bool
  alerts : List WalletAlert
  error : String

/-- Outcome record of `analysis_engine.generate_analysis` (the fields
`_process_agent` reads). -/
structure AnalysisResult where
  success : Bool
  hasAlerts : Bool
deriving Repr, DecidableEq

/-- `generate_analysis` modelled with its external Gemini call as an oracle
bit: with no alerts it reports success without alerts; with alerts it
reports success with alerts when the Gemini call returns, and a caught
failure otherwise. -/
def generateAnalysis (geminiOk : Bool) (alerts : List WalletAlert) :
    AnalysisResult :=
  if alerts.isEmpty then ⟨true, false⟩
  else if geminiOk then ⟨true, true⟩ else ⟨false, false⟩

/-- The external outcomes one `_process_agent` call can observe: the
execution result, the Gemini analysis call, and the per-dispatch delivery
results of the notifier (`dispatch_alert` returns a result object and never
raises — its body is wrapped in a catch-all). -/
structure PipelineEnv where
  exec : ExecOutcome
  geminiOk : Bool
  deliver : Nat → Bool

/-- The dispatch loop of `_handle_alerts`: one `dispatch_alert` call per
alert, in order; the outcome of each is logged and the loop continues
regardless (no retry, no raise on a failed delivery). -/
def dispatchAlerts (deliver : Nat → Bool) : Nat → List WalletAlert → List Bool
  | _, [] => []
  | i, _ :: rest => deliver i :: dispatchAlerts deliver (i + 1) rest

/-- The value `_process_agent` returns, plus the list of delivery outcomes
observed by its `_handle_alerts` call (empty when no dispatch happened). -/
structure RunResult where
  success : Bool
  alertsCount : Nat
  dispatched : List Bool
  error : Option String
deriving Repr, DecidableEq

/-- `AgentScheduler._process_agent` (lines 137-197): update run timestamps;
run the plan; on execution failure raise into the `except` branch, which
increments the error count with the formatted message; on success, when
alerts were produced and the analysis reports success with alerts, dispatch
them and set the status to `triggered`; finally reset the error count. -/
def processAgent (env : PipelineEnv) (now : Int) (a : AgentRec) :
    AgentRec × RunResult :=
  let a1 := updateAgentRunTime now a
  if env.exec.success then
    if env.exec.alerts.isEmpty then
      (resetAgentErrorCount a1, ⟨true, 0, [], none⟩)
    else
      let ar := generateAnalysis env.geminiOk env.exec.alerts
      if ar.success && ar.hasAlerts then
        let d := dispatchAlerts env.deliver 0 env.exec.alerts
        (resetAgentErrorCount (updateAgentStatus "triggered" a1),
          ⟨true, env.exec.alerts.length, d, none⟩)
      else
        (resetAgentErrorCount a1, ⟨true, env.exec.alerts.length, [], none⟩)
  else
    let msg := "Tool execution failed: " ++ env.exec.error
    (incrementAgentErrorCount msg a1, ⟨false, 0, [], some msg⟩)

/-- C4.  On a failing pipeline run the agent's error count is incremented by
one, the error message is recorded as the last error, and the status becomes
`error` exactly when the incremented count reaches `max_retries`, otherwise
it is unchanged. -/
theorem C4_failure_lifecycle (env : PipelineEnv) (now : Int) (a : AgentRec)
    (hf : env.exec.success = false) :
    ((processAgent env now a).1.errorCount = a.errorCount + 1)
    ∧ (processAgent env now a).1.lastError
        = some ("Tool execution failed: " ++ env.exec.error)
    ∧ (a.maxRetries ≤ a.errorCount + 1 →
        (processAgent env now a).1.status = "error")
    ∧ (a.errorCount + 1 < a.maxRetries →
        (processAgent env now a).1.status = a.status)
    ∧ (processAgent env now a).2.success = false := by
  have hval : processAgent env now a =
      (incrementAgentErrorCount ("Tool execution failed: " ++ env.exec.error)
          (updateAgentRunTime now a),
        ⟨false, 0, [], some ("Tool execution failed: " ++ env.exec.error)⟩) := by
    unfold processAgent
    rw [hf]
    rfl
  rw [hval]
  refine ⟨rfl, rfl, ?_, ?_, rfl⟩
  · intro h
    simp [incrementAgentErrorCount, updateAgentRunTime, if_pos h]
  · intro h
    have hne : ¬ a.maxRetries ≤ a.errorCount + 1 := by omega
    simp [incrementAgentErrorCount, updateAgentRunTime, if_neg hne]

/-- Witness for C4 at a concrete failing run. -/
theorem C4_failure_lifecycle_witness :
    ((processAgent ⟨⟨false, [], "boom"⟩, true, fun _ => true⟩ 0
        ⟨1, "active", none, none, 0, 3, none, 300⟩).1.errorCount = 0 + 1)
    ∧ (processAgent ⟨⟨false, [], "boom"⟩, true, fun _ => true⟩ 0
        ⟨1, "active", none, none, 0, 3, none, 300⟩).1.lastError
        = some ("Tool execution failed: " ++ "boom")
    ∧ (3 ≤ 0 + 1 →
        (processAgent ⟨⟨false, [], "boom"⟩, true, fun _ => true⟩ 0
          ⟨1, "active", none, none, 0, 3, none, 300⟩).1.status = "error")
    ∧ (0 + 1 < 3 →
        (processAgent ⟨⟨false, [], "boom"⟩, true, fun _ => true⟩ 0
          ⟨1, "active", none, none, 0, 3, none, 300⟩).1.status = "active")
    ∧ (processAgent ⟨⟨false, [], "boom"⟩, true, fun _ => true⟩ 0
        ⟨1, "active", none, none, 0, 3, none, 300⟩).2.success = false :=
  C4_failure_lifecycle ⟨⟨false, [], "boom"⟩, true, fun _ => true⟩ 0
    ⟨1, "active", none, none, 0, 3, none, 300⟩ rfl

/-- C5, counterexample.  The claim says a successful run that produced at
least one alert always sets the status to `triggered`.  In the code the
status update is guarded by the analysis result
(`analysis_result.get("success") and analysis_result.get("has_alerts")`,
line 166): when the Gemini analysis call fails, a successful run with one
alert resets the error state but leaves the status `active`. -/
theorem C5_not_triggered_when_analysis_fails :
    ((processAgent ⟨⟨true, [⟨"wallet_threshold_exceeded", "medium", 10, "ETH"⟩],
          ""⟩, false, fun _ => true⟩ 0
        ⟨1, "active", none, none, 2, 3, some "old", 300⟩).2.success = true)
    ∧ (processAgent ⟨⟨true, [⟨"wallet_threshold_exceeded", "medium", 10, "ETH"⟩],
          ""⟩, false, fun _ => true⟩ 0
        ⟨1, "active", none, none, 2, 3, some "old", 300⟩).2.alertsCount = 1
    ∧ (processAgent ⟨⟨true, [⟨"wallet_threshold_exceeded", "medium", 10, "ETH"⟩],
          ""⟩, false, fun _ => true⟩ 0
        ⟨1, "active", none, none, 2, 3, some "old", 300⟩).1.status = "active"
    ∧ ("active" : String) ≠ "triggered" :=
  ⟨rfl, rfl, rfl, by decide⟩

/-- C5, amended claim.  On a successful pipeline run the agent's error count
is reset to zero and the last error is cleared; the status is set to
`triggered` exactly when the run produced at least one alert *and* the
downstream analysis succeeded, and is left unchanged otherwise (in
particular when the analysis call fails). -/
theorem C5_amended_success_lifecycle (env : PipelineEnv) (now : Int)
    (a : AgentRec) (hs : env.exec.success = true) :
    ((processAgent env now a).1.errorCount = 0)
    ∧ (processAgent env now a).1.lastError = none
    ∧ (processAgent env now a).2.success = true
    ∧ (processAgent env now a).1.status
        = (if !env.exec.alerts.isEmpty && env.geminiOk then "triggered"
            else a.status) := by
  unfold processAgent
  rw [hs]
  simp only [if_true]
  cases he : env.exec.alerts.isEmpty with
  | true =>
    simp [resetAgentErrorCount, updateAgentRunTime, he]
  | false =>
    simp only [he, Bool.not_false, Bool.true_and, Bool.false_eq_true, if_false]
    cases hg : env.geminiOk with
    | true =>
      simp [generateAnalysis, he, hg, resetAgentErrorCount, updateAgentRunTime,
        updateAgentStatus]
    | false =>
      simp [generateAnalysis, he, hg, resetAgentErrorCount, updateAgentRunTime,
        updateAgentStatus]

/-- Witness for the amended C5 at a concrete successful run with a failing
analysis call. -/
theorem C5_amended_success_lifecycle_witness :
    ((processAgent ⟨⟨true, [⟨"wallet_threshold_exceeded", "medium", 10, "ETH"⟩],
          ""⟩, false, fun _ => true⟩ 0
        ⟨1, "active", none, none, 2, 3, some "old", 300⟩).1.errorCount = 0)
    ∧ (processAgent ⟨⟨true, [⟨"wallet_threshold_exceeded", "medium", 10, "ETH"⟩],
          ""⟩, false, fun _ => true⟩ 0
        ⟨1, "active", none, none, 2, 3, some "old", 300⟩).1.lastError = none
    ∧ (processAgent ⟨⟨true, [⟨"wallet_threshold_exceeded", "medium", 10, "ETH"⟩],
          ""⟩, false, fun _ => true⟩ 0
        ⟨1, "active", none, none, 2, 3, some "old", 300⟩).2.success = true
    ∧ (processAgent ⟨⟨true, [⟨"wallet_threshold_exceeded", "medium", 10, "ETH"⟩],
          ""⟩, false, fun _ => true⟩ 0
        ⟨1, "active", none, none, 2, 3, some "old", 300⟩).1.status
        = (if !([⟨"wallet_threshold_exceeded", "medium", 10, "ETH"⟩] :
              List WalletAlert).isEmpty && false then "triggered"
            else "active") :=
  C5_amended_success_lifecycle
    ⟨⟨true, [⟨"wallet_threshold_exceeded", "medium", 10, "ETH"⟩], ""⟩, false,
      fun _ => true⟩ 0 ⟨1, "active", none, none, 2, 3, some "old", 300⟩ rfl

lemma dispatchAlerts_length (d : Nat → Bool) (i : Nat) (l : List WalletAlert) :
    (dispatchAlerts d i l).length = l.length := by
  induction l generalizing i with
  | nil => rfl
  | cons x rest ih => simp [dispatchAlerts, ih]

/-- C9.  Delivery outcomes are best-effort: on a successful run the cycle is
reported successful and the error count is reset no matter what the notifier
returns; the resulting agent state does not depend on the delivery oracle at
all; and each produced alert is dispatched exactly once (no retry within the
cycle) whenever dispatching happens. -/
theorem C9_delivery_failure_is_benign (env : PipelineEnv) (now : Int)
    (a : AgentRec) (d2 : Nat → Bool) (hs : env.exec.success = true) :
    ((processAgent env now a).2.success = true)
    ∧ (processAgent env now a).1.errorCount = 0
    ∧ (processAgent ⟨env.exec, env.geminiOk, d2⟩ now a).1
        = (processAgent env now a).1
    ∧ (processAgent env now a).2.dispatched.length
        = (if !env.exec.alerts.isEmpty && env.geminiOk then
            env.exec.alerts.length else 0) := by
  unfold processAgent
  rw [hs]
  simp only [if_true]
  cases he : env.exec.alerts.isEmpty with
  | true =>
    simp [resetAgentErrorCount, updateAgentRunTime, he]
  | false =>
    simp only [he, Bool.not_false, Bool.true_and, Bool.false_eq_true, if_false]
    cases hg : env.geminiOk with
    | true =>
      simp [generateAnalysis, he, hg, resetAgentErrorCount, updateAgentRunTime,
        updateAgentStatus, dispatchAlerts_length]
    | false =>
      simp [generateAnalysis, he, hg, resetAgentErrorCount, updateAgentRunTime,
        updateAgentStatus]

/-- Witness for C9 at a concrete run where the single delivery fails. -/
theorem C9_delivery_failure_is_benign_witness :
    ((processAgent ⟨⟨true, [⟨"wallet_threshold_exceeded", "high", 12, "ETH"⟩],
          ""⟩, true, fun _ => false⟩ 0
        ⟨1, "active", none, none, 1, 3, none, 300⟩).2.success = true)
    ∧ (processAgent ⟨⟨true, [⟨"wallet_threshold_exceeded", "high", 12, "ETH"⟩],
          ""⟩, true, fun _ => false⟩ 0
        ⟨1, "active", none, none, 1, 3, none, 300⟩).1.errorCount = 0
    ∧ (processAgent ⟨⟨true, [⟨"wallet_threshold_exceeded", "high", 12, "ETH"⟩],
          ""⟩, true, fun _ => true⟩ 0
        ⟨1, "active", none, none, 1, 3, none, 300⟩).1
        = (processAgent ⟨⟨true, [⟨"wallet_threshold_exceeded", "high", 12, "ETH"⟩],
            ""⟩, true, fun _ => false⟩ 0
          ⟨1, "active", none, none, 1, 3, none, 300⟩).1
    ∧ (processAgent ⟨⟨true, [⟨"wallet_threshold_exceeded", "high", 12, "ETH"⟩],
          ""⟩, true, fun _ => false⟩ 0
        ⟨1, "active", none, none, 1, 3, none, 300⟩).2.dispatched.length
        = (if !([⟨"wallet_threshold_exceeded", "high", 12, "ETH"⟩] :
              List WalletAlert).isEmpty && true then
            ([⟨"wallet_threshold_exceeded", "high", 12, "ETH"⟩] :
              List WalletAlert).length else 0) :=
  C9_delivery_failure_is_benign
    ⟨⟨true, [⟨"wallet_threshold_exceeded", "high", 12, "ETH"⟩], ""⟩, true,
      fun _ => false⟩ 0 ⟨1, "active", none, none, 1, 3, none, 300⟩
    (fun _ => true) rfl

/- ================================================================
   Scheduler: the manual run (AgentScheduler.run_agent_once)
   ================================================================ -/

/-- `AgentScheduler.run_agent_once`: look the agent up by id (via
`get_agent_with_user`) and, when found, invoke `_process_agent` directly —
no due-time check and no semaphore acquisition; a missing agent yields the
"Agent not found" result, modelled as `none`. -/
def runAgentOnce (env : PipelineEnv) (now : Int) (agents : List AgentRec)
    (i : Nat) : Option (AgentRec × RunResult) :=
  match agents.find? (fun a => a.id == i) with
  | none => none
  | some a => some (processAgent env now a)

/-- `AgentScheduler._process_agent_with_semaphore`: acquire a permit, run
`_process_agent`, release the permit.  Its sequential denotation: the
pipeline value is exactly `processAgent`, and the net effect on the permit
count is zero (the blocking discipline itself is modelled by the `SemStep`
transition system below). -/
def processAgentWithSemaphore (env : PipelineEnv) (now : Int) (a : AgentRec)
    (permits : Nat) : (AgentRec × RunResult) × Nat :=
  (processAgent env now a, permits)

/-- C7.  The manual run executes exactly the per-agent pipeline of a
scheduled run: whenever the agent is found, `run_agent_once` returns
precisely `processAgent` on that agent (same result, same lifecycle
updates), with no due-time filter applied; and the semaphore-wrapped
scheduled run computes the same pipeline value while leaving the permit
count unchanged, whereas the manual run never touches the permit count at
all. -/
theorem C7_manual_run_parity (env : PipelineEnv) (now : Int)
    (agents : List AgentRec) (i : Nat) (a : AgentRec)
    (h : agents.find? (fun x => x.id == i) = some a) :
    runAgentOnce env now agents i = some (processAgent env now a)
    ∧ ∀ permits : Nat,
        (processAgentWithSemaphore env now a permits).1 = processAgent env now a
        ∧ (processAgentWithSemaphore env now a permits).2 = permits := by
  unfold runAgentOnce
  rw [h]
  exact ⟨rfl, fun _ => ⟨rfl, rfl⟩⟩

/-- Witness for C7 on a concrete one-agent store: the paused agent (which
the due-time selection would skip) is still run by the manual operation. -/
theorem C7_manual_run_parity_witness :
    runAgentOnce ⟨⟨true, [], ""⟩, true, fun _ => true⟩ 0
        [⟨7, "paused", none, none, 0, 3, none, 300⟩] 7
      = some (processAgent ⟨⟨true, [], ""⟩, true, fun _ => true⟩ 0
          ⟨7, "paused", none, none, 0, 3, none, 300⟩)
    ∧ ∀ permits : Nat,
        (processAgentWithSemaphore ⟨⟨true, [], ""⟩, true, fun _ => true⟩ 0
            ⟨7, "paused", none, none, 0, 3, none, 300⟩ permits).1
          = processAgent ⟨⟨true, [], ""⟩, true, fun _ => true⟩ 0
              ⟨7, "paused", none, none, 0, 3, none, 300⟩
        ∧ (processAgentWithSemaphore ⟨⟨true, [], ""⟩, true, fun _ => true⟩ 0
            ⟨7, "paused", none, none, 0, 3, none, 300⟩ permits).2 = permits :=
  C7_manual_run_parity ⟨⟨true, [], ""⟩, true, fun _ => true⟩ 0
    [⟨7, "paused", none, none, 0, 3, none, 300⟩] 7
    ⟨7, "paused", none, none, 0, 3, none, 300⟩ rfl

/- ================================================================
   Scheduler: bounded concurrency (asyncio.Semaphore, lines 32-34 and
   132-135)
   ================================================================ -/

/-- Abstract state of one scheduler cycle's dispatch: the semaphore's free
permit count (`asyncio.Semaphore(MAX_CONCURRENT_AGENTS)`), and how many of
the cycle's `_process_agent_with_semaphore` tasks are blocked in acquire,
inside the `async with` body (running `_process_agent`), or finished. -/
structure SemState where
  permits : Nat
  waiting : Nat
  running : Nat
  finished : Nat
deriving Repr, DecidableEq

/-- Interleaving semantics of the semaphore bracket: a waiting task may
enter the body only by consuming a free permit; a running task leaves the
body and returns its permit. -/
inductive SemStep : SemState → SemState → Prop
  | start (s : SemState) (hw : 0 < s.waiting) (hp : 0 < s.permits) :
      SemStep s ⟨s.permits - 1, s.waiting - 1, s.running + 1, s.finished⟩
  | finish (s : SemState) (hr : 0 < s.running) :
      SemStep s ⟨s.permits + 1, s.waiting, s.running - 1, s.finished + 1⟩

/-- Start of a cycle that selected `n` due agents under concurrency limit
`maxConc`: all permits free, all `n` tasks waiting. -/
def semInit (maxConc n : Nat) : SemState := ⟨maxConc, n, 0, 0⟩

/-- States reachable during the cycle's dispatch. -/
inductive SemReachable (maxConc n : Nat) : SemState → Prop
  | init : SemReachable maxConc n (semInit maxConc n)
  | step {s t : SemState} (hs : SemReachable maxConc n s) (h : SemStep s t) :
      SemReachable maxConc n t

lemma semReachable_permits_add_running (maxConc n : Nat) (s : SemState)
    (h : SemReachable maxConc n s) : s.permits + s.running = maxConc := by
  induction h with
  | init => simp [semInit]
  | step hs hstep ih =>
    cases hstep with
    | start hw hp => simp only; omega
    | finish hr => simp only; omega

/-- C8.  Within one scheduler cycle, the number of per-agent pipelines
inside the semaphore body never exceeds the configured maximum concurrent
agent count, regardless of how many due agents were selected. -/
theorem C8_concurrency_bounded (maxConc n : Nat) (s : SemState)
    (h : SemReachable maxConc n s) : s.running ≤ maxConc := by
  have hpr := semReachable_permits_add_running maxConc n s h
  omega

/-- Witness for C8 in the claim's scenario: limit 2, five due agents, after
two tasks have entered the body — exactly 2 are running, within the bound. -/
theorem C8_concurrency_bounded_witness :
    SemReachable 2 5 ⟨0, 3, 2, 0⟩ ∧ (⟨0, 3, 2, 0⟩ : SemState).running ≤ 2 :=
  have h1 : SemReachable 2 5 ⟨1, 4, 1, 0⟩ :=
    SemReachable.step SemReachable.init
      (SemStep.start (semInit 2 5) (by decide) (by decide))
  have h2 : SemReachable 2 5 ⟨0, 3, 2, 0⟩ :=
    SemReachable.step h1 (SemStep.start ⟨1, 4, 1, 0⟩ (by decide) (by decide))
  ⟨h2, C8_concurrency_bounded 2 5 ⟨0, 3, 2, 0⟩ h2⟩

/- ================================================================
   Scheduler: stop behaviour (AgentScheduler.stop, lines 55-70, and
   _scheduler_loop, lines 72-110)
   ================================================================ -/

/-- Progress of one dispatched agent task within a cycle. -/
inductive TaskRun
  | pending
  | inFlight
  | completed
  | cancelled
deriving Repr, DecidableEq

/-- Where the `_scheduler_loop` coroutine currently is: at the top of the
`while` loop, awaiting the `asyncio.gather` of the cycle's tasks, in the
inter-cycle `asyncio.sleep`, or exited (the `stopped` phase records the
final state of the last cycle's tasks). -/
inductive CyclePhase
  | checkLoop
  | processing (tasks : List TaskRun)
  | sleeping
  | stopped (tasks : List TaskRun)
deriving Repr, DecidableEq

/-- State of the engine for the stop analysis: the `is_running` flag, an
undelivered `task.cancel()` request, the loop's position, and how many
cycles have been started. -/
structure LoopState where
  isRunning : Bool
  cancelPending : Bool
  phase : CyclePhase
  cycles : Nat
deriving Repr, DecidableEq

/-- Effect of cancelling the cycle's `asyncio.gather`: every child task that
has not yet completed is cancelled. -/
def cancelTask : TaskRun → TaskRun
  | .completed => .completed
  | _ => .cancelled

/-- Small-step semantics of `_scheduler_loop` together with `stop()`.
`beginCycle` is the top of the `while` body (guarded by `is_running`);
`startTask`/`finishTask` advance the gathered children; `cycleDone` is the
gather returning; `wake` is the inter-cycle sleep elapsing.  `stopRequest`
models `stop()` lines 61-64: it sets `is_running := False` and requests
cancellation of the scheduler task in one step.  A pending cancellation is
delivered at the coroutine's current await point (`except
asyncio.CancelledError: break`); delivery during the gather cancels the
children that have not completed (asyncio's gather cancellation).  Nothing
in `stop()` or the loop ever sets `is_running` back to `True`. -/
inductive LoopStep : LoopState → LoopState → Prop
  | beginCycle (s : LoopState) (n : Nat) (hr : s.isRunning = true)
      (hp : s.phase = .checkLoop) :
      LoopStep s ⟨s.isRunning, s.cancelPending,
        .processing (List.replicate n .pending), s.cycles + 1⟩
  | startTask (s : LoopState) (ts : List TaskRun) (i : Nat)
      (hp : s.phase = .processing ts) (hi : ts.get? i = some .pending) :
      LoopStep s ⟨s.isRunning, s.cancelPending,
        .processing (ts.set i .inFlight), s.cycles⟩
  | finishTask (s : LoopState) (ts : List TaskRun) (i : Nat)
      (hp : s.phase = .processing ts) (hi : ts.get? i = some .inFlight) :
      LoopStep s ⟨s.isRunning, s.cancelPending,
        .processing (ts.set i .completed), s.cycles⟩
  | cycleDone (s : LoopState) (ts : List TaskRun)
      (hp : s.phase = .processing ts) (hall : ∀ t ∈ ts, t = TaskRun.completed) :
      LoopStep s ⟨s.isRunning, s.cancelPending, .sleeping, s.cycles⟩
  | wake (s : LoopState) (hp : s.phase = .sleeping)
      (hc : s.cancelPending = false) :
      LoopStep s ⟨s.isRunning, s.cancelPending, .checkLoop, s.cycles⟩
  | exitLoop (s : LoopState) (hp : s.phase = .checkLoop)
      (hr : s.isRunning = false) :
      LoopStep s ⟨s.isRunning, s.cancelPending, .stopped [], s.cycles⟩
  | stopRequest (s : LoopState) (hr : s.isRunning = true) :
      LoopStep s ⟨false, true, s.phase, s.cycles⟩
  | cancelProcessing (s : LoopState) (ts : List TaskRun)
      (hc : s.cancelPending = true) (hp : s.phase = .processing ts) :
      LoopStep s ⟨s.isRunning, s.cancelPending,
        .stopped (ts.map cancelTask), s.cycles⟩
  | cancelSleeping (s : LoopState) (hc : s.cancelPending = true)
      (hp : s.phase = .sleeping) :
      LoopStep s ⟨s.isRunning, s.cancelPending, .stopped [], s.cycles⟩
  | cancelCheckLoop (s : LoopState) (hc : s.cancelPending = true)
      (hp : s.phase = .checkLoop) :
      LoopStep s ⟨s.isRunning, s.cancelPending, .stopped [], s.cycles⟩

/-- C6, counterexample.  The claim says in-flight agent processing is
allowed to run to completion after a stop request.  Concrete run: a cycle
starts with one agent, its task goes in flight, `stop()` is called, and the
cancellation is delivered while the gather is pending: the in-flight task
ends `cancelled` — forcibly interrupted, not run to completion — and the
resulting state is terminal. -/
theorem C6_inflight_task_cancelled_by_stop :
    Relation.ReflTransGen LoopStep ⟨true, false, .checkLoop, 0⟩
        ⟨false, true, .stopped [.cancelled], 1⟩
    ∧ (∀ t, ¬ LoopStep ⟨false, true, .stopped [.cancelled], 1⟩ t)
    ∧ TaskRun.cancelled ≠ TaskRun.completed := by
  refine ⟨?_, ?_, by decide⟩
  · have h1 : LoopStep ⟨true, false, .checkLoop, 0⟩
        ⟨true, false, .processing [.pending], 1⟩ :=
      LoopStep.beginCycle ⟨true, false, .checkLoop, 0⟩ 1 rfl rfl
    have h2 : LoopStep ⟨true, false, .processing [.pending], 1⟩
        ⟨true, false, .processing [.inFlight], 1⟩ :=
      LoopStep.startTask ⟨true, false, .processing [.pending], 1⟩
        [.pending] 0 rfl rfl
    have h3 : LoopStep ⟨true, false, .processing [.inFlight], 1⟩
        ⟨false, true, .processing [.inFlight], 1⟩ :=
      LoopStep.stopRequest ⟨true, false, .processing [.inFlight], 1⟩ rfl
    have h4 : LoopStep ⟨false, true, .processing [.inFlight], 1⟩
        ⟨false, true, .stopped [.cancelled], 1⟩ :=
      LoopStep.cancelProcessing ⟨false, true, .processing [.inFlight], 1⟩
        [.inFlight] rfl rfl
    exact Relation.ReflTransGen.head h1 (Relation.ReflTransGen.head h2
      (Relation.ReflTransGen.head h3 (Relation.ReflTransGen.single h4)))
  · intro t h
    cases h <;> simp_all

/-- C6, amended claim.  A stop request prevents any new cycle: once
`is_running` is false it stays false and the cycle counter never advances.
But the stop is not cooperative towards in-flight work: `stop()` cancels
the scheduler task, and when that cancellation is delivered while the cycle
gather is pending, every child task that has not yet completed — in-flight
ones included — is cancelled rather than allowed to finish. -/
theorem C6_amended_stop_behaviour :
    (∀ s t : LoopState, LoopStep s t → s.isRunning = false →
        t.cycles = s.cycles ∧ t.isRunning = false)
    ∧ (∀ (s t : LoopState) (ts ts2 : List TaskRun), LoopStep s t →
        s.phase = .processing ts → t.phase = .stopped ts2 →
        ts2 = ts.map cancelTask
        ∧ ∀ i, ts.get? i = some .inFlight → ts2.get? i = some .cancelled) := by
  constructor
  · intro s t h hr
    cases h <;> simp_all
  · intro s t ts ts2 h hs ht
    cases h <;> try simp_all
    rename_i ht
    intro i hi
    rw [← ht]
    simp [List.getElem?_map, hi, cancelTask]

/-- Witness for the amended C6 at the concrete cancellation step of the
counterexample run. -/
theorem C6_amended_stop_behaviour_witness :
    ((⟨false, true, .stopped [.cancelled], 1⟩ : LoopState).cycles
        = (⟨false, true, .processing [.inFlight], 1⟩ : LoopState).cycles
      ∧ (⟨false, true, .stopped [.cancelled], 1⟩ : LoopState).isRunning = false)
    ∧ ([TaskRun.cancelled] = [TaskRun.inFlight].map cancelTask
      ∧ ∀ i, [TaskRun.inFlight].get? i = some .inFlight →
          [TaskRun.cancelled].get? i = some .cancelled) :=
  have hstep : LoopStep ⟨false, true, .processing [.inFlight], 1⟩
      ⟨false, true, .stopped [.cancelled], 1⟩ :=
    LoopStep.cancelProcessing ⟨false, true, .processing [.inFlight], 1⟩
      [.inFlight] rfl rfl
  ⟨C6_amended_stop_behaviour.1 ⟨false, true, .processing [.inFlight], 1⟩
      ⟨false, true, .stopped [.cancelled], 1⟩ hstep rfl,
   C6_amended_stop_behaviour.2 ⟨false, true, .processing [.inFlight], 1⟩
      ⟨false, true, .stopped [.cancelled], 1⟩ [.inFlight] [.cancelled]
      hstep rfl rfl⟩

end ChainWatch
